import Mathlib

/-!
Verification of the Velox marketplace bot (`src/server.js` and the unnamed
variants) against its specification.  The JavaScript is shallowly embedded:
strings are Lean `String`s manipulated through their character lists,
JavaScript numbers are `Int`/`Nat`, nullable / possibly-`undefined` values are
`Option`, code that can throw returns `Except`, and the database tables are
association lists or functions.  Network calls are modelled by oracle
parameters supplying the remote responses.
-/

namespace Velox

/-! ## JavaScript string primitives -/

/-- ASCII lower-casing of a character list, the model of
`String.prototype.toLowerCase` restricted to ASCII (the only characters the
patterns of this program contain). -/
def lowerL (l : List Char) : List Char := l.map Char.toLower

/-- Model of JavaScript `s.includes(sub)` : `sub` occurs as a contiguous
substring of `s`. -/
def jsIncludes (s sub : String) : Bool := decide (sub.data <:+: s.data)

/-- Model of `s.split('/')` on the character list. -/
def splitSlash : List Char → List (List Char)
  | [] => [[]]
  | c :: cs =>
    let r := splitSlash cs
    if c = '/' then [] :: r
    else
      match r with
      | [] => [[c]]
      | seg :: rest => (c :: seg) :: rest

/-- Model of `resource.split('/').pop()` : the trailing segment of the path. -/
def lastSeg (r : String) : String :=
  ⟨(splitSlash r.data).getLastD []⟩

/-- JavaScript truthiness of a possibly-undefined string
(`undefined`, `null` and `""` are falsy). -/
def strTruthy : Option String → Bool
  | none => false
  | some s => s ≠ ""

/-- Model of `(v || 21600)` applied to the possibly-undefined numeric
`expires_in` field: `undefined` and `0` are falsy and give the default. -/
def jsOrDefaultTTL : Option Int → Int
  | none => 21600
  | some v => if v = 0 then 21600 else v

/-! ## Token store and `oauthRefresh` (src/server.js lines 16–50) -/

/-- A row of the `tokens` table. -/
structure TokenRow where
  access_token : String
  refresh_token : String
  expires_at : Int
  updated_at : Int
deriving DecidableEq

/-- The `tokens` table keyed by `ml_user_id`. -/
abbrev TokenStore := Nat → Option TokenRow

/-- The JSON body returned by the provider's `/oauth/token` endpoint for a
refresh-token grant; every field may be absent. -/
structure RefreshResp where
  access_token : Option String
  refresh_token : Option String
  expires_in : Option Int
deriving DecidableEq

/-- Errors thrown by `oauthRefresh`: `notFound` is
`'refresh_token não encontrado'` (no stored credential) and `refreshFailed` is
`'Falha no refresh_token'` (provider returned no access token). -/
inductive RefreshErr
  | notFound
  | refreshFailed
deriving DecidableEq

/-- Function `oauthRefresh(ml_user_id)`: loads the stored refresh token, throws if the
account has none; posts the grant (its response is the oracle `resp`); throws
if the response's `access_token` is falsy; otherwise updates the row with the
new access token, `coalesce`-preserved refresh token and
`now + (expires_in || 21600) * 1000` expiry, and returns the new access
token.  `now` is `Date.now()` in milliseconds. -/
def oauthRefresh (store : TokenStore) (now : Int) (resp : RefreshResp)
    (uid : Nat) : Except RefreshErr (TokenStore × String) :=
  match store uid with
  | none => .error .notFound
  | some row =>
    match resp.access_token with
    | none => .error .refreshFailed
    | some atk =>
      if atk = "" then .error .refreshFailed
      else
        let expiresAt := now + jsOrDefaultTTL resp.expires_in * 1000
        let row' : TokenRow :=
          { access_token := atk
            refresh_token := resp.refresh_token.getD row.refresh_token
            expires_at := expiresAt
            updated_at := now }
        .ok (fun u => if u = uid then some row' else store u, atk)

/-! ## `mlFetchWithAutoRefresh` (src/server.js lines 53–76) -/

/-- An HTTP response as seen by the code: status, status text, the body as
text and the body as JSON (`res.json()` may throw). -/
structure HttpResp where
  status : Nat
  statusText : String
  text : String
  jsonBody : Except Unit String

/-- node-fetch `res.ok`: status in `[200, 300)`. -/
def resOk (r : HttpResp) : Bool := 200 ≤ r.status && r.status < 300

/-- Errors thrown out of `mlFetchWithAutoRefresh`: an upstream non-2xx
becomes ``ML ${status} ${statusText} – ${text}`` (carried structurally),
refresh errors propagate, and a final unparsable body throws. -/
inductive MlErr
  | upstream (status : Nat) (statusText : String) (body : String)
  | refresh (e : RefreshErr)
  | jsonParse
deriving DecidableEq

/-- The full observable outcome of one `mlFetchWithAutoRefresh` call: the
returned JSON or thrown error, the bearer tokens of the requests actually
issued (in order), how many times `oauthRefresh` was invoked, and the token
store afterwards. -/
structure MlOut where
  result : Except MlErr String
  fetchedTokens : List String
  refreshCount : Nat
  store : TokenStore

/-- Function `mlFetchWithAutoRefresh(url, ml_user_id, access_token, opts)`.  `doFetch`
is the oracle giving the marketplace's response to the identical request as a
function of the bearer token used. -/
def mlFetchWithAutoRefresh (doFetch : String → HttpResp) (store : TokenStore)
    (now : Int) (resp : RefreshResp) (uid : Nat) (tok0 : String) : MlOut :=
  let r1 := doFetch tok0
  if r1.status = 401 then
    match oauthRefresh store now resp uid with
    | .error e => ⟨.error (.refresh e), [tok0], 1, store⟩
    | .ok (store', ntk) =>
      let r2 := doFetch ntk
      if resOk r2 then
        match r2.jsonBody with
        | .error _ => ⟨.error .jsonParse, [tok0, ntk], 1, store'⟩
        | .ok j => ⟨.ok j, [tok0, ntk], 1, store'⟩
      else
        ⟨.error (.upstream r2.status r2.statusText r2.text), [tok0, ntk], 1, store'⟩
  else if resOk r1 then
    match r1.jsonBody with
    | .error _ => ⟨.error .jsonParse, [tok0], 0, store⟩
    | .ok j => ⟨.ok j, [tok0], 0, store⟩
  else
    ⟨.error (.upstream r1.status r1.statusText r1.text), [tok0], 0, store⟩

/-! ## The `answers` table upsert (src/server.js lines 188–192) -/

/-- A row of the `answers` table (key `question_id` is the association-list
key). -/
structure AnswerRow where
  final : String
  mode : String
  answered_at : Int
deriving DecidableEq

/-- The SQL
`insert into answers … on conflict (question_id) do update set final=$2,
mode='auto', answered_at=now()`: update the row in place when the key is
present, append it otherwise. -/
def answersUpsert (db : List (Int × AnswerRow)) (qid : Int) (text : String)
    (now : Int) : List (Int × AnswerRow) :=
  if db.any (fun p => decide (p.1 = qid)) then
    db.map (fun p => if p.1 = qid then (qid, ⟨text, "auto", now⟩) else p)
  else
    db ++ [(qid, ⟨text, "auto", now⟩)]

/-- Number of rows of the table carrying a given `question_id`. -/
def countKey (db : List (Int × AnswerRow)) (qid : Int) : Nat :=
  (db.filter (fun p => decide (p.1 = qid))).length

/-- The row stored under a given `question_id`, if any. -/
def lookupAnswer (db : List (Int × AnswerRow)) (qid : Int) : Option AnswerRow :=
  (db.find? (fun p => decide (p.1 = qid))).map (·.2)

/-! ## The webhook handler (src/server.js lines 149–199) -/

/-- The relevant fields of the webhook JSON body; any of them may be absent. -/
structure WebhookPayload where
  topic : Option String
  resource : Option String
  user_id : Option Int
deriving DecidableEq

/-- The filter
`(topic && topic.toLowerCase().includes('questions')) && resource &&
resource.includes('/questions/')`.  (A present-but-empty string is falsy, and
also fails the `includes` test, so truthiness collapses into the substring
tests.) -/
def isQuestionsB (p : WebhookPayload) : Bool :=
  match p.topic, p.resource with
  | some t, some r =>
    strTruthy (some t) && jsIncludes ⟨lowerL t.data⟩ "questions" &&
      strTruthy (some r) && jsIncludes r "/questions/"
  | _, _ => false

/-- The fields of the fetched question JSON the handler reads. -/
structure QuestionJson where
  id : Int
  item_id : String
  text : String
deriving DecidableEq

/-- The fields of the fetched item JSON the handler reads;
`variations = some n` models `item.variations` being an array of length `n`. -/
structure ItemJson where
  title : String
  price : Int
  shippingMode : Option String
  variations : Option Nat
deriving DecidableEq

/-- The context object passed to `generateAI`. -/
structure GenContext where
  question : String
  title : String
  price : Int
  shipping : Option String
  variations : Nat
deriving DecidableEq

/-- Oracle outcomes for each awaited step of the webhook handler; `.error`
means the step threw (rejected promise / SQL error / upstream error). -/
structure WebhookEnv where
  tokenLookup : Except Unit (Option String)
  fetchQuestion : Except Unit QuestionJson
  fetchItem : Except Unit ItemJson
  generate : Except Unit String
  postAnswer : Except Unit Unit
  upsertOutcome : Except Unit Unit

/-- Observable side effects of one webhook invocation, in order. -/
inductive WEffect
  | tokenLookup (uid : Option Int)
  | apiGet (path : String)
  | genCall (ctx : GenContext)
  | apiPost (path : String) (question_id : Int) (text : String)
  | dbUpsertAnswer (question_id : Int) (text : String)
deriving DecidableEq

/-- The `POST /ml/webhook` handler.  Returns the HTTP status sent, the trace
of side effects performed, and the `answers` table afterwards.  Every thrown
exception is caught by the surrounding `try`/`catch`, which still sends 200. -/
def webhookStep (env : WebhookEnv) (p : WebhookPayload)
    (db : List (Int × AnswerRow)) (now : Int) :
    Nat × List WEffect × List (Int × AnswerRow) :=
  if !(isQuestionsB p) then (200, [], db)
  else
    let r := p.resource.getD ""
    let qId := lastSeg r
    let e1 : List WEffect := [.tokenLookup p.user_id]
    match env.tokenLookup with
    | .error _ => (200, e1, db)
    | .ok none => (200, e1, db)
    | .ok (some _token) =>
      let e2 := e1 ++ [.apiGet ("/questions/" ++ qId)]
      match env.fetchQuestion with
      | .error _ => (200, e2, db)
      | .ok q =>
        let e3 := e2 ++ [.apiGet ("/items/" ++ q.item_id)]
        match env.fetchItem with
        | .error _ => (200, e3, db)
        | .ok item =>
          let ctx : GenContext :=
            { question := q.text
              title := item.title
              price := item.price
              shipping := item.shippingMode
              variations := item.variations.getD 0 }
          let e4 := e3 ++ [.genCall ctx]
          match env.generate with
          | .error _ => (200, e4, db)
          | .ok answer =>
            let e5 := e4 ++ [.apiPost "/answers" q.id answer]
            match env.postAnswer with
            | .error _ => (200, e5, db)
            | .ok _ =>
              let e6 := e5 ++ [.dbUpsertAnswer q.id answer]
              match env.upsertOutcome with
              | .error _ => (200, e6, db)
              | .ok _ => (200, e6, answersUpsert db q.id answer now)

/-! ## OAuth callback with replay guard (src/unnamed/part_003 lines 84–143,
identical guard in src/unnamed/part_001 lines 56–104) -/

/-- Lookup `usedCodes.get(code)`: the first-seen timestamp of an authorization code,
looked up in the `code -> timestamp` map (modelled as an association list). -/
def lookupCode (m : List (String × Int)) (c : String) : Option Int :=
  (m.find? (fun p => decide (p.1 = c))).map (·.2)

/-- Update `usedCodes.set(code, now)`: overwrite the entry when present, insert it
otherwise. -/
def setCode (m : List (String × Int)) (c : String) (t : Int) :
    List (String × Int) :=
  if m.any (fun p => decide (p.1 = c)) then
    m.map (fun p => if p.1 = c then (c, t) else p)
  else
    m ++ [(c, t)]

/-- The firing of the `setTimeout(() => usedCodes.delete(code), 2*60*1000)`
timers up to time `t`: every entry recorded at `t₀` with `t₀ + 120000 ≤ t`
has been deleted. -/
def evictDue (m : List (String × Int)) (t : Int) : List (String × Int) :=
  m.filter (fun p => t < p.2 + 120000)

/-- The `/oauth/token` response to the authorization-code exchange. -/
structure ExchangeOutcome where
  ok : Bool
  access_token : Option String
  refresh_token : Option String
  expires_in : Option Int
deriving DecidableEq

/-- The `/users/me` response; `id = some 0` models a present-but-zero id,
which is falsy in the `!me?.id` check. -/
structure MeOutcome where
  id : Option Nat
  nickname : Option String
deriving DecidableEq

/-- A row of the `tokens` table as written by the callback (the variant's
insert passes `tok.refresh_token` through, which may be absent). -/
structure CbTokenRow where
  access_token : String
  refresh_token : Option String
  expires_at : Int
  updated_at : Int
deriving DecidableEq

/-- The process state touched by the callback: the in-memory `usedCodes`
replay guard and the `tokens` table. -/
structure CbState where
  usedCodes : List (String × Int)
  tokens : Nat → Option CbTokenRow

/-- How one `GET /ml/callback` request ended. -/
inductive CbRes
  | missingCode
  | codeReplayed
  | exchangeFailed
  | meFailed
  | connected
deriving DecidableEq

/-- The observable outcome of one callback request: new state, HTTP status,
whether the token exchange was attempted, and which exit was taken. -/
structure CbOut where
  state : CbState
  status : Nat
  exchangeAttempted : Bool
  res : CbRes

/-- The `GET /ml/callback` handler of the replay-guard variants.  Timers due
at `now` have fired (`evictDue`) before the request is handled.  The guard
rejects with 400 — before any exchange — when the code is present in
`usedCodes` with a timestamp less than two minutes old; otherwise the code is
recorded (and scheduled for deletion) *before* the exchange is attempted. -/
def handleCallback (st : CbState) (now : Int) (code : Option String)
    (exch : ExchangeOutcome) (me : MeOutcome) : CbOut :=
  let m := evictDue st.usedCodes now
  match code with
  | none => ⟨{ st with usedCodes := m }, 400, false, .missingCode⟩
  | some c =>
    let replayed :=
      match lookupCode m c with
      | some t0 => decide (now - t0 < 120000)
      | none => false
    if replayed then
      ⟨{ st with usedCodes := m }, 400, false, .codeReplayed⟩
    else
      let m' := setCode m c now
      if !(exch.ok && strTruthy exch.access_token) then
        ⟨{ st with usedCodes := m' }, 400, true, .exchangeFailed⟩
      else
        match me.id with
        | none => ⟨{ st with usedCodes := m' }, 400, true, .meFailed⟩
        | some 0 => ⟨{ st with usedCodes := m' }, 400, true, .meFailed⟩
        | some (Nat.succ k) =>
          let uid := Nat.succ k
          let row : CbTokenRow :=
            { access_token := exch.access_token.getD ""
              refresh_token := exch.refresh_token
              expires_at := now + jsOrDefaultTTL exch.expires_in * 1000
              updated_at := now }
          ⟨{ usedCodes := m'
             tokens := fun u => if u = uid then some row else st.tokens u },
            200, true, .connected⟩

/-! ## `generateAI` (src/server.js lines 202–234) -/

/-- The static fallback reply. -/
def fallbackReply : String := "Estamos à disposição pelo Mercado Livre!"

/-- The canonical in-platform replacement phrase. -/
def phraseStr : String := "apenas pelo Mercado Livre"

/-- Replacement phrase as a character list. -/
def phraseL : List Char := phraseStr.data

def whatsL : List Char := "whats".data
def appL : List Char := "app".data
def telegramL : List Char := "telegram".data
def instagramL : List Char := "instagram".data
def contatoL : List Char := "contato".data
def externoL : List Char := "externo".data

/-- JavaScript regex `\s` character class (no `u` flag): space, tab, line
terminators and the Unicode space separators. -/
def wsChar (c : Char) : Bool :=
  c = ' ' || c = '\t' || c = '\n' || c = '\u000B' || c = '\u000C' ||
  c = '\r' || c = '\u00A0' || c = '\u1680' ||
  ('\u2000' ≤ c && c ≤ '\u200A') ||
  c = '\u2028' || c = '\u2029' || c = '\u202F' || c = '\u205F' ||
  c = '\u3000' || c = '\uFEFF'

/-- Case-insensitive literal match of a (lower-case) pattern against the head
of a character list, the `i`-flag ASCII canonicalisation. -/
def litAt : List Char → List Char → Bool
  | [], _ => true
  | _ :: _, [] => false
  | p :: ps, c :: cs => p == Char.toLower c && litAt ps cs

/-- Length of the leading whitespace run (the greedy `\s+`). -/
def wsCount : List Char → Nat
  | [] => 0
  | c :: cs => if wsChar c then wsCount cs + 1 else 0

/-- One attempt of the regex
`/whats(app)?|telegram|instagram|contato\s+externo/i` at the current
position: the length of the match, if any.  Alternatives are tried in order
and `(app)?` is greedy, exactly as the regex engine does. -/
def matchAt (cs : List Char) : Option Nat :=
  if litAt whatsL cs then
    if litAt appL (cs.drop 5) then some 8 else some 5
  else if litAt telegramL cs then some 8
  else if litAt instagramL cs then some 9
  else if litAt contatoL cs then
    let k := wsCount (cs.drop 7)
    if k ≠ 0 && litAt externoL ((cs.drop 7).drop k) then some (7 + k + 7)
    else none
  else none

/-- Any successful match consumes at least one character. -/
theorem matchAt_pos {cs : List Char} {n : Nat} (h : matchAt cs = some n) :
    1 ≤ n := by
  unfold matchAt at h
  split_ifs at h <;> simp_all <;> omega

/-- The global (`g`-flag) replacement scan of
`text.replace(/whats(app)?|telegram|instagram|contato\s+externo/gi, phrase)`:
at each position, either splice in the phrase and skip the match, or emit the
character and move on.  Structural recursion on a fuel argument (the fuel
never runs out when it starts at the length of the list). -/
def replaceScanF : Nat → List Char → List Char
  | _, [] => []
  | 0, l => l
  | fuel + 1, c :: cs =>
    match matchAt (c :: cs) with
    | some n => phraseL ++ replaceScanF fuel ((c :: cs).drop n)
    | none => c :: replaceScanF fuel cs

/-- The replacement scan, fuelled by the input length. -/
def replaceScan (l : List Char) : List Char := replaceScanF l.length l

/-- Substitution `text.replace(…off-platform regex…, 'apenas pelo Mercado Livre')`. -/
def replaceOffPlatform (s : String) : String := ⟨replaceScan s.data⟩

/-- Truncation `.slice(0, 900)`. -/
def jsSlice900 (s : String) : String := ⟨s.data.take 900⟩

/-- The parsed Hugging Face response: `parseFailed` models
`r.json()` throwing (`data = null`), `notArray` a non-array JSON value, and
`arr` an array whose entries may or may not carry a `generated_text` string. -/
inductive GenData
  | parseFailed
  | notArray
  | arr (entries : List (Option String))
deriving DecidableEq

/-- The text selection
`Array.isArray(data) && data[0]?.generated_text ? data[0].generated_text :
fallback` (an absent first entry, an absent field, and an empty string are
all falsy). -/
def selectText : GenData → String
  | .arr (some t :: _) => if t = "" then fallbackReply else t
  | _ => fallbackReply

/-- Whether the response fails the shape test and falls back. -/
def badShape (d : GenData) : Bool :=
  match d with
  | .arr (some t :: _) => t == ""
  | _ => true

/-- Function `generateAI` from the point the generation response is available: select
the text or the fallback, substitute the off-platform contact terms, truncate
to 900. -/
def generateAI (d : GenData) : String :=
  jsSlice900 (replaceOffPlatform (selectText d))

/-- The three fixed off-platform terms (lower case); `whats` is the
obligatory prefix of both `whats` and `whatsapp`. -/
def fixedTerms : List (List Char) := [whatsL, telegramL, instagramL]

/-- No case-insensitive occurrence of any fixed off-platform term. -/
def NoTermOcc (l : List Char) : Prop :=
  ∀ t ∈ fixedTerms, ¬ t <:+: lowerL l

/-- Every suffix of every fixed term (the residues a partially-consumed term
occurrence can leave at a boundary). -/
def termTails : List (List Char) :=
  whatsL.tails ++ telegramL.tails ++ instagramL.tails

/-- Pointwise functional update of a token store, the effect of the SQL
`update tokens set … where ml_user_id = $4`. -/
def storeUpdate (store : TokenStore) (uid : Nat) (r : TokenRow) : TokenStore :=
  fun u => if u = uid then some r else store u

/-! ## Helper lemmas -/

/-- Successful refresh, fully evaluated: the stored row exists and the
provider returned a truthy access token. -/
theorem oauthRefresh_ok {store : TokenStore} {now : Int} {resp : RefreshResp}
    {uid : Nat} {row : TokenRow} {atk : String}
    (hrow : store uid = some row) (hat : resp.access_token = some atk)
    (hne : atk ≠ "") :
    oauthRefresh store now resp uid =
      .ok (storeUpdate store uid
        { access_token := atk
          refresh_token := resp.refresh_token.getD row.refresh_token
          expires_at := now + jsOrDefaultTTL resp.expires_in * 1000
          updated_at := now }, atk) := by
  simp only [oauthRefresh, hrow, hat, if_neg hne]
  rfl

/-- A predicate with no witness in the list: `any` agrees with `find?`. -/
theorem any_eq_false_of_find?_eq_none {α : Type} {p : α → Bool} {l : List α}
    (h : l.find? p = none) : l.any p = false := by
  rw [List.find?_eq_none] at h
  simp only [List.any_eq_false]
  intro x hx
  simpa using h x hx

/-- Webhook requests failing the question filter do nothing besides the 200
acknowledgment. -/
theorem webhookStep_not_question (env : WebhookEnv) (p : WebhookPayload)
    (db : List (Int × AnswerRow)) (now : Int) (h : isQuestionsB p = false) :
    webhookStep env p db now = (200, [], db) := by
  unfold webhookStep
  rw [h]
  rfl

/-- A nonempty substring can only occur in a nonempty string. -/
theorem ne_empty_of_jsIncludes {s sub : String} (h : jsIncludes s sub = true)
    (hne : sub.data ≠ []) : s ≠ "" := by
  intro hs
  subst hs
  unfold jsIncludes at h
  rw [decide_eq_true_eq] at h
  exact hne (List.eq_nil_of_infix_nil h)

/-- The webhook filter, characterised: it accepts exactly the payloads whose
topic (lower-cased) contains `"questions"` and whose resource contains
`"/questions/"`, as substring tests. -/
theorem isQuestionsB_iff (p : WebhookPayload) :
    isQuestionsB p = true ↔
      (∃ t, p.topic = some t ∧ jsIncludes ⟨lowerL t.data⟩ "questions" = true) ∧
      (∃ r, p.resource = some r ∧ jsIncludes r "/questions/" = true) := by
  obtain ⟨ot, orr, ou⟩ := p
  cases ot with
  | none => simp [isQuestionsB]
  | some t =>
    cases orr with
    | none => simp [isQuestionsB]
    | some r =>
      unfold isQuestionsB
      simp only [Bool.and_eq_true]
      constructor
      · rintro ⟨⟨⟨-, h1⟩, -⟩, h2⟩
        exact ⟨⟨t, rfl, h1⟩, ⟨r, rfl, h2⟩⟩
      · rintro ⟨⟨t', ht', h1⟩, ⟨r', hr', h2⟩⟩
        cases ht'
        cases hr'
        refine ⟨⟨⟨?_, h1⟩, ?_⟩, h2⟩
        · have : t ≠ "" := by
            intro he
            subst he
            exact ne_empty_of_jsIncludes h1 (by decide) rfl
          simpa [strTruthy] using this
        · have : r ≠ "" := ne_empty_of_jsIncludes h2 (by decide)
          simpa [strTruthy] using this

/-- Accepted webhook requests always at least perform the token lookup. -/
theorem webhookStep_effects_ne (env : WebhookEnv) (p : WebhookPayload)
    (db : List (Int × AnswerRow)) (now : Int) (hq : isQuestionsB p = true) :
    (webhookStep env p db now).2.1 ≠ [] := by
  unfold webhookStep
  rw [hq]
  dsimp only
  repeat' split
  all_goals simp_all

/-- The in-place update of `answersUpsert` does not change how many rows
carry the key. -/
theorem countKey_map_upd (db : List (Int × AnswerRow)) (qid : Int)
    (nr : AnswerRow) :
    countKey (db.map (fun p => if p.1 = qid then (qid, nr) else p)) qid =
      countKey db qid := by
  induction db with
  | nil => rfl
  | cons p db' ih =>
    unfold countKey at ih ⊢
    by_cases hp : p.1 = qid
    · simp only [List.map_cons, List.filter_cons]
      simp [hp, ih]
    · simp only [List.map_cons, List.filter_cons]
      simp [hp, ih]

/-- The upsert leaves exactly one row under the key (provided the primary-key
invariant held before). -/
theorem countKey_upsert (db : List (Int × AnswerRow)) (qid : Int)
    (text : String) (now : Int) (h : countKey db qid ≤ 1) :
    countKey (answersUpsert db qid text now) qid = 1 := by
  unfold answersUpsert
  by_cases ha : db.any (fun p => decide (p.1 = qid)) = true
  · rw [if_pos ha]
    rw [countKey_map_upd]
    have h1 : 0 < countKey db qid := by
      rw [List.any_eq_true] at ha
      obtain ⟨x, hx, hk⟩ := ha
      unfold countKey
      have : x ∈ db.filter (fun p => decide (p.1 = qid)) := List.mem_filter.2 ⟨hx, hk⟩
      exact List.length_pos.2 (List.ne_nil_of_mem this)
    omega
  · rw [if_neg ha]
    unfold countKey
    rw [List.filter_append]
    have h0 : db.filter (fun p => decide (p.1 = qid)) = [] := by
      rw [List.filter_eq_nil_iff]
      intro x hx
      rw [Bool.not_eq_true] at ha
      rw [List.any_eq_false] at ha
      exact ha x hx
    simp [h0]

/-- Lookup `find?` over the in-place update: the fresh row when the key was present,
nothing otherwise. -/
theorem find?_map_upd (db : List (Int × AnswerRow)) (qid : Int)
    (nr : AnswerRow) :
    ((db.map (fun p => if p.1 = qid then (qid, nr) else p)).find?
        (fun p => decide (p.1 = qid))) =
      if db.any (fun p => decide (p.1 = qid)) then some (qid, nr) else none := by
  induction db with
  | nil => rfl
  | cons p db' ih =>
    by_cases hp : p.1 = qid
    · simp [List.map_cons, List.find?_cons, List.any_cons, hp]
    · have hd : decide (p.1 = qid) = false := by simpa using hp
      simp only [List.map_cons, List.any_cons, if_neg hp]
      rw [List.find?_cons_of_neg _ (by simpa using hp), ih]
      simp only [hd, Bool.false_or]

/-- Looking up the key right after an upsert always yields the fresh row. -/
theorem lookupAnswer_upsert (db : List (Int × AnswerRow)) (qid : Int)
    (text : String) (now : Int) :
    lookupAnswer (answersUpsert db qid text now) qid =
      some ⟨text, "auto", now⟩ := by
  unfold answersUpsert lookupAnswer
  by_cases ha : db.any (fun p => decide (p.1 = qid)) = true
  · rw [if_pos ha, find?_map_upd, if_pos ha]
    rfl
  · rw [if_neg ha]
    rw [Bool.not_eq_true, List.any_eq_false] at ha
    have h0 : db.find? (fun p => decide (p.1 = qid)) = none :=
      List.find?_eq_none.2 (fun x hx => by simpa using ha x hx)
    rw [List.find?_append, h0]
    simp

/-- The upsert never removes the key. -/
theorem countKey_upsert_le (db : List (Int × AnswerRow)) (qid : Int)
    (text : String) (now : Int) (h : countKey db qid ≤ 1) :
    countKey (answersUpsert db qid text now) qid ≤ 1 :=
  le_of_eq (countKey_upsert db qid text now h)

/-! ## Claim theorems -/

/-- C1: for every account with a stored credential, when
`mlFetchWithAutoRefresh` receives a 401 it performs exactly one refresh and
retries the identical request exactly once with the new token; if the retried
request also fails (including a second 401) the call throws an error carrying
the HTTP status and response body, and no further refresh attempt is made. -/
theorem claim_C1_single_refresh_and_retry (doFetch : String → HttpResp)
    (store : TokenStore) (now : Int) (resp : RefreshResp) (uid : Nat)
    (tok0 : String) (row : TokenRow) (ntk : String)
    (hrow : store uid = some row) (hat : resp.access_token = some ntk)
    (hne : ntk ≠ "") (h401 : (doFetch tok0).status = 401) :
    (mlFetchWithAutoRefresh doFetch store now resp uid tok0).refreshCount = 1 ∧
    (mlFetchWithAutoRefresh doFetch store now resp uid tok0).fetchedTokens =
      [tok0, ntk] ∧
    (resOk (doFetch ntk) = false →
      (mlFetchWithAutoRefresh doFetch store now resp uid tok0).result =
        .error (.upstream (doFetch ntk).status (doFetch ntk).statusText
          (doFetch ntk).text)) := by
  have hr := @oauthRefresh_ok store now resp uid row ntk hrow hat hne
  unfold mlFetchWithAutoRefresh
  rw [if_pos h401, hr]
  dsimp only
  refine ⟨?_, ?_, ?_⟩
  · split
    · split <;> rfl
    · rfl
  · split
    · split <;> rfl
    · rfl
  · intro hok
    rw [if_neg (by simp [hok])]

/-- C1 witness: a concrete 401 followed by a failing retry (another 401). -/
theorem claim_C1_single_refresh_and_retry_witness :
    (mlFetchWithAutoRefresh
        (fun t => if t = "t0" then ⟨401, "Unauthorized", "expired", .ok "{}"⟩
                  else ⟨401, "Unauthorized", "still", .ok "{}"⟩)
        (fun u => if u = 9 then some ⟨"t0", "R0", 0, 0⟩ else none)
        0 ⟨some "t1", none, none⟩ 9 "t0").refreshCount = 1 ∧
    (mlFetchWithAutoRefresh
        (fun t => if t = "t0" then ⟨401, "Unauthorized", "expired", .ok "{}"⟩
                  else ⟨401, "Unauthorized", "still", .ok "{}"⟩)
        (fun u => if u = 9 then some ⟨"t0", "R0", 0, 0⟩ else none)
        0 ⟨some "t1", none, none⟩ 9 "t0").fetchedTokens = ["t0", "t1"] ∧
    (mlFetchWithAutoRefresh
        (fun t => if t = "t0" then ⟨401, "Unauthorized", "expired", .ok "{}"⟩
                  else ⟨401, "Unauthorized", "still", .ok "{}"⟩)
        (fun u => if u = 9 then some ⟨"t0", "R0", 0, 0⟩ else none)
        0 ⟨some "t1", none, none⟩ 9 "t0").result =
      .error (.upstream 401 "Unauthorized" "still") := by
  have h := claim_C1_single_refresh_and_retry
    (fun t => if t = "t0" then ⟨401, "Unauthorized", "expired", .ok "{}"⟩
              else ⟨401, "Unauthorized", "still", .ok "{}"⟩)
    (fun u => if u = 9 then some ⟨"t0", "R0", 0, 0⟩ else none)
    0 ⟨some "t1", none, none⟩ 9 "t0" ⟨"t0", "R0", 0, 0⟩ "t1"
    rfl rfl (by decide) rfl
  exact ⟨h.1, h.2.1, h.2.2 (by decide)⟩

/-- C2: upserting an answer twice for the same `question_id` leaves exactly
one row under that key, holding the text and timestamp of the later upsert;
re-processing is total (never an error) and overwrites the prior record. -/
theorem claim_C2_answer_upsert_idempotent (db : List (Int × AnswerRow))
    (qid : Int) (t1 t2 : String) (n1 n2 : Int) (h : countKey db qid ≤ 1) :
    countKey (answersUpsert (answersUpsert db qid t1 n1) qid t2 n2) qid = 1 ∧
    lookupAnswer (answersUpsert (answersUpsert db qid t1 n1) qid t2 n2) qid =
      some ⟨t2, "auto", n2⟩ :=
  ⟨countKey_upsert _ _ _ _ (countKey_upsert_le db qid t1 n1 h),
   lookupAnswer_upsert _ _ _ _⟩

/-- C2 witness: two concrete upserts for question 555. -/
theorem claim_C2_answer_upsert_idempotent_witness :
    countKey (answersUpsert (answersUpsert [] 555 "first" 1) 555 "second" 2)
      555 = 1 ∧
    lookupAnswer (answersUpsert (answersUpsert [] 555 "first" 1) 555 "second" 2)
      555 = some ⟨"second", "auto", 2⟩ :=
  claim_C2_answer_upsert_idempotent [] 555 "first" "second" 1 2 (by decide)

/-- C3: a successful refresh whose provider response omits a new
`refresh_token` keeps the stored `refresh_token`, while `access_token` and
expiry are always updated; when the response supplies one, it replaces the
stored value. -/
theorem claim_C3_refresh_token_preserved (store : TokenStore) (now : Int)
    (resp : RefreshResp) (uid : Nat) (row : TokenRow) (atk : String)
    (hrow : store uid = some row) (hat : resp.access_token = some atk)
    (hne : atk ≠ "") :
    (resp.refresh_token = none →
      oauthRefresh store now resp uid =
        .ok (storeUpdate store uid
          { access_token := atk
            refresh_token := row.refresh_token
            expires_at := now + jsOrDefaultTTL resp.expires_in * 1000
            updated_at := now }, atk)) ∧
    (∀ rt, resp.refresh_token = some rt →
      oauthRefresh store now resp uid =
        .ok (storeUpdate store uid
          { access_token := atk
            refresh_token := rt
            expires_at := now + jsOrDefaultTTL resp.expires_in * 1000
            updated_at := now }, atk)) := by
  constructor
  · intro hnone
    rw [oauthRefresh_ok hrow hat hne]
    simp [hnone]
  · intro rt hrt
    rw [oauthRefresh_ok hrow hat hne]
    simp [hrt]

/-- C3 witness: a concrete refresh whose response has no `refresh_token`
keeps `"oldR"`. -/
theorem claim_C3_refresh_token_preserved_witness :
    oauthRefresh (fun u => if u = 7 then some ⟨"oldA", "oldR", 5, 5⟩ else none)
        1000 ⟨some "newA", none, none⟩ 7 =
      .ok (storeUpdate
        (fun u => if u = 7 then some ⟨"oldA", "oldR", 5, 5⟩ else none) 7
        ⟨"newA", "oldR", 1000 + 21600 * 1000, 1000⟩, "newA") :=
  (claim_C3_refresh_token_preserved _ 1000 ⟨some "newA", none, none⟩ 7
    ⟨"oldA", "oldR", 5, 5⟩ "newA" rfl rfl (by decide)).1 rfl

/-- C5: the webhook endpoint responds 200 for every payload, every oracle
outcome (any step may throw) and every database state. -/
theorem claim_C5_webhook_always_200 (env : WebhookEnv) (p : WebhookPayload)
    (db : List (Int × AnswerRow)) (now : Int) :
    (webhookStep env p db now).1 = 200 := by
  unfold webhookStep
  repeat first
  | rfl
  | split

/-- C6: a payload that fails the question filter is acknowledged with 200
immediately, with no outbound call, no token lookup, no generation and no
database write. -/
theorem claim_C6_non_question_no_effects (env : WebhookEnv)
    (p : WebhookPayload) (db : List (Int × AnswerRow)) (now : Int)
    (h : isQuestionsB p = false) :
    webhookStep env p db now = (200, [], db) :=
  webhookStep_not_question env p db now h

/-- C6 witness: an `orders` notification triggers nothing. -/
theorem claim_C6_non_question_no_effects_witness :
    isQuestionsB ⟨some "orders_v2", some "/orders/1", some 42⟩ = false ∧
    webhookStep
      ⟨.ok (some "tok"), .ok ⟨1, "MLB1", "q"⟩, .ok ⟨"t", 10, none, none⟩,
        .ok "ans", .ok (), .ok ()⟩
      ⟨some "orders_v2", some "/orders/1", some 42⟩ [] 0 = (200, [], []) :=
  ⟨by decide, claim_C6_non_question_no_effects _ _ _ _ (by decide)⟩

/-- C7: `oauthRefresh` fails with the not-found error when no credential is
stored, fails with the refresh-failed error when the provider returns no
(truthy) access token, and on success writes the credential through with
expiry `now + ttl·1000`, the TTL defaulting to 21600 seconds when the
provider declares none. -/
theorem claim_C7_refresh_errors_and_expiry (store : TokenStore) (now : Int)
    (resp : RefreshResp) (uid : Nat) :
    (store uid = none → oauthRefresh store now resp uid = .error .notFound) ∧
    (∀ row, store uid = some row → resp.access_token = none →
      oauthRefresh store now resp uid = .error .refreshFailed) ∧
    (∀ row, store uid = some row → resp.access_token = some "" →
      oauthRefresh store now resp uid = .error .refreshFailed) ∧
    (∀ row atk, store uid = some row → resp.access_token = some atk →
      atk ≠ "" →
      oauthRefresh store now resp uid =
        .ok (storeUpdate store uid
          { access_token := atk
            refresh_token := resp.refresh_token.getD row.refresh_token
            expires_at := now + jsOrDefaultTTL resp.expires_in * 1000
            updated_at := now }, atk) ∧
      (resp.expires_in = none →
        now + jsOrDefaultTTL resp.expires_in * 1000 = now + 21600 * 1000) ∧
      (∀ ttl, resp.expires_in = some ttl → ttl ≠ 0 →
        now + jsOrDefaultTTL resp.expires_in * 1000 = now + ttl * 1000)) := by
  refine ⟨?_, ?_, ?_, ?_⟩
  · intro hnone
    unfold oauthRefresh
    rw [hnone]
  · intro row hrow hat
    unfold oauthRefresh
    rw [hrow, hat]
  · intro row hrow hat
    unfold oauthRefresh
    rw [hrow, hat]
    simp
  · intro row atk hrow hat hne
    refine ⟨oauthRefresh_ok hrow hat hne, ?_, ?_⟩
    · intro hnone
      rw [hnone]
      rfl
    · intro ttl httl httl0
      rw [httl]
      simp [jsOrDefaultTTL, httl0]

/-- C7 witness: the not-found branch and a concrete successful refresh with a
provider-declared TTL. -/
theorem claim_C7_refresh_errors_and_expiry_witness :
    oauthRefresh (fun _ => none) 0 ⟨some "a", none, none⟩ 3 =
      .error .notFound ∧
    oauthRefresh (fun u => if u = 3 then some ⟨"A", "R", 1, 1⟩ else none) 50
        ⟨some "B", some "R2", some 3600⟩ 3 =
      .ok (storeUpdate
        (fun u => if u = 3 then some ⟨"A", "R", 1, 1⟩ else none) 3
        ⟨"B", "R2", 50 + 3600 * 1000, 50⟩, "B") := by
  constructor
  · exact (claim_C7_refresh_errors_and_expiry (fun _ => none) 0
      ⟨some "a", none, none⟩ 3).1 rfl
  · have h := (claim_C7_refresh_errors_and_expiry
      (fun u => if u = 3 then some ⟨"A", "R", 1, 1⟩ else none) 50
      ⟨some "B", some "R2", some 3600⟩ 3).2.2.2
      ⟨"A", "R", 1, 1⟩ "B" rfl rfl (by decide)
    exact h.1

/-- C9: the webhook filter's acceptance is decided purely by substring
tests — the handler does work exactly when the lower-cased topic contains
`"questions"` and the resource contains `"/questions/"` (any such topic is
accepted, not only the exact notification names) — and the question id used
in the follow-up fetch is the trailing segment of the resource path. -/
theorem claim_C9_filter_is_substring_test (env : WebhookEnv)
    (p : WebhookPayload) (db : List (Int × AnswerRow)) (now : Int) :
    ((webhookStep env p db now).2.1 ≠ [] ↔
      (∃ t, p.topic = some t ∧ jsIncludes ⟨lowerL t.data⟩ "questions" = true) ∧
      (∃ r, p.resource = some r ∧ jsIncludes r "/questions/" = true)) ∧
    (∀ r tok, p.resource = some r → env.tokenLookup = .ok (some tok) →
      isQuestionsB p = true →
      (webhookStep env p db now).2.1.take 2 =
        [.tokenLookup p.user_id, .apiGet ("/questions/" ++ lastSeg r)]) := by
  constructor
  · rw [← isQuestionsB_iff]
    constructor
    · intro hne
      by_contra hq
      rw [Bool.not_eq_true] at hq
      rw [webhookStep_not_question env p db now hq] at hne
      exact hne rfl
    · intro hq
      exact webhookStep_effects_ne env p db now hq
  · intro r tok hr hlook hq
    unfold webhookStep
    rw [hq, hr, hlook]
    dsimp only
    repeat' split
    all_goals simp_all

/-- C9 witness: a non-standard topic passing the substring test is accepted
and the fetch path ends in the trailing resource segment. -/
theorem claim_C9_filter_is_substring_test_witness :
    (webhookStep
        ⟨.ok (some "tok"), .error (), .error (), .error (), .error (),
          .error ()⟩
        ⟨some "foo_Questions_bar", some "/x/questions/777", some 42⟩ [] 0
      ).2.1.take 2 =
      [.tokenLookup (some 42), .apiGet ("/questions/" ++ lastSeg "/x/questions/777")] :=
  (claim_C9_filter_is_substring_test
      ⟨.ok (some "tok"), .error (), .error (), .error (), .error (), .error ()⟩
      ⟨some "foo_Questions_bar", some "/x/questions/777", some 42⟩ [] 0).2
    "/x/questions/777" "tok" rfl rfl (by decide)

/-- Appending entries past a key with no entry defers the lookup. -/
theorem lookupCode_append_of_none {m l : List (String × Int)} {c : String}
    (h : lookupCode m c = none) :
    lookupCode (m ++ l) c = lookupCode l c := by
  unfold lookupCode at h ⊢
  rw [List.find?_append]
  rw [Option.map_eq_none'] at h
  rw [h]
  rfl

/-- Filtering cannot create an entry for a key that had none. -/
theorem lookupCode_filter_none {m : List (String × Int)} {c : String}
    (pred : String × Int → Bool) (h : lookupCode m c = none) :
    lookupCode (m.filter pred) c = none := by
  unfold lookupCode at h ⊢
  rw [Option.map_eq_none'] at h ⊢
  rw [List.find?_eq_none] at h ⊢
  intro x hx
  exact h x (List.mem_of_mem_filter hx)

/-- The timed eviction distributes over appended maps. -/
theorem evictDue_append (m l : List (String × Int)) (t : Int) :
    evictDue (m ++ l) t = evictDue m t ++ evictDue l t :=
  List.filter_append _ _

/-- A guard entry younger than two minutes survives eviction. -/
theorem evictDue_keep_single {c : String} {t0 t1 : Int}
    (h : t1 < t0 + 120000) : evictDue [(c, t0)] t1 = [(c, t0)] := by
  simp [evictDue, h]

/-- A guard entry two minutes old has been deleted by its timer. -/
theorem evictDue_drop_single {c : String} {t0 t2 : Int}
    (h : t0 + 120000 ≤ t2) : evictDue [(c, t0)] t2 = [] := by
  simp only [evictDue, List.filter_cons, List.filter_nil]
  rw [if_neg]
  simp only [decide_eq_true_eq]
  omega

/-- A fresh code is recorded before the exchange: whatever the exchange and
`/users/me` outcomes, the handler's `usedCodes` afterwards carry `(c, now)`
appended to the evicted map, and the token exchange was attempted. -/
theorem handleCallback_fresh (st : CbState) (now : Int) (c : String)
    (exch : ExchangeOutcome) (me : MeOutcome)
    (h : lookupCode (evictDue st.usedCodes now) c = none) :
    (handleCallback st now (some c) exch me).state.usedCodes =
      evictDue st.usedCodes now ++ [(c, now)] ∧
    (handleCallback st now (some c) exch me).exchangeAttempted = true := by
  have hany : (evictDue st.usedCodes now).any (fun p => decide (p.1 = c)) = false := by
    apply any_eq_false_of_find?_eq_none
    unfold lookupCode at h
    exact Option.map_eq_none.1 h
  have hset : setCode (evictDue st.usedCodes now) c now =
      evictDue st.usedCodes now ++ [(c, now)] := by
    unfold setCode
    rw [if_neg (by simp [hany])]
  unfold handleCallback
  dsimp only
  rw [h]
  rw [if_neg Bool.false_ne_true]
  try dsimp only
  rw [hset]
  repeat' split
  all_goals exact ⟨rfl, rfl⟩

/-- A failing exchange on a fresh code exits with 400 after the code was
recorded. -/
theorem handleCallback_exchange_failed (st : CbState) (now : Int) (c : String)
    (exch : ExchangeOutcome) (me : MeOutcome)
    (h : lookupCode (evictDue st.usedCodes now) c = none)
    (hfail : exch.ok = false) :
    (handleCallback st now (some c) exch me).status = 400 ∧
    (handleCallback st now (some c) exch me).res = .exchangeFailed := by
  unfold handleCallback
  dsimp only
  rw [h]
  rw [if_neg Bool.false_ne_true]
  try dsimp only
  rw [if_pos (by simp [hfail])]
  exact ⟨rfl, rfl⟩

/-- A code still present in the guard and younger than two minutes is
rejected before any exchange. -/
theorem handleCallback_replayed (st : CbState) (t1 t0 : Int) (c : String)
    (exch : ExchangeOutcome) (me : MeOutcome)
    (h : lookupCode (evictDue st.usedCodes t1) c = some t0)
    (hwin : t1 - t0 < 120000) :
    (handleCallback st t1 (some c) exch me).status = 400 ∧
    (handleCallback st t1 (some c) exch me).exchangeAttempted = false ∧
    (handleCallback st t1 (some c) exch me).res = .codeReplayed := by
  unfold handleCallback
  dsimp only
  rw [h]
  rw [if_pos (by simp [hwin])]
  exact ⟨rfl, rfl, rfl⟩

/-- Eviction cannot create an entry for a key that had none. -/
theorem lookupCode_evict_none {m : List (String × Int)} {c : String} (t : Int)
    (h : lookupCode m c = none) : lookupCode (evictDue m t) c = none :=
  lookupCode_filter_none _ h

/-- After a fresh first presentation at `t0`, the guard still holds exactly
`(c, t0)` at any `t1` within the window. -/
theorem lookup_after_first (m : List (String × Int)) (c : String)
    (t0 t1 : Int) (hfresh : lookupCode m c = none) (hkeep : t1 < t0 + 120000) :
    lookupCode (evictDue (m ++ [(c, t0)]) t1) c = some t0 := by
  rw [evictDue_append, evictDue_keep_single hkeep]
  rw [lookupCode_append_of_none (lookupCode_evict_none t1 hfresh)]
  simp [lookupCode]

/-- C4: presenting the same OAuth code again within the 2-minute replay
window yields a 400 rejection with no second token exchange; once the window
has elapsed, the code has been evicted from the seen-code map. -/
theorem claim_C4_code_replay_window (st : CbState) (t0 t1 t2 : Int)
    (c : String) (e1 e2 : ExchangeOutcome) (me1 me2 : MeOutcome)
    (hfresh : lookupCode (evictDue st.usedCodes t0) c = none)
    (hwin : t1 - t0 < 120000) (hexp : t0 + 120000 ≤ t2) :
    lookupCode (handleCallback st t0 (some c) e1 me1).state.usedCodes c =
      some t0 ∧
    (handleCallback st t0 (some c) e1 me1).exchangeAttempted = true ∧
    (handleCallback (handleCallback st t0 (some c) e1 me1).state t1 (some c)
        e2 me2).status = 400 ∧
    (handleCallback (handleCallback st t0 (some c) e1 me1).state t1 (some c)
        e2 me2).exchangeAttempted = false ∧
    (handleCallback (handleCallback st t0 (some c) e1 me1).state t1 (some c)
        e2 me2).res = .codeReplayed ∧
    lookupCode
      (evictDue (handleCallback st t0 (some c) e1 me1).state.usedCodes t2)
      c = none := by
  obtain ⟨hstate, hatt⟩ := handleCallback_fresh st t0 c e1 me1 hfresh
  have hkeep : t1 < t0 + 120000 := by omega
  have hlook1 :
      lookupCode (handleCallback st t0 (some c) e1 me1).state.usedCodes c =
        some t0 := by
    rw [hstate, lookupCode_append_of_none hfresh]
    simp [lookupCode]
  have hlook2 :
      lookupCode
        (evictDue (handleCallback st t0 (some c) e1 me1).state.usedCodes t1)
        c = some t0 := by
    rw [hstate]
    exact lookup_after_first _ c t0 t1 hfresh hkeep
  obtain ⟨hs, ha, hres⟩ := handleCallback_replayed _ t1 t0 c e2 me2 hlook2 hwin
  refine ⟨hlook1, hatt, hs, ha, hres, ?_⟩
  rw [hstate, evictDue_append, evictDue_drop_single hexp, List.append_nil]
  exact lookupCode_evict_none t2 hfresh

/-- C4 witness: code `"codeX"` first seen at 0 ms, replayed at 60000 ms,
evicted by 120000 ms. -/
theorem claim_C4_code_replay_window_witness :
    lookupCode (handleCallback ⟨[], fun _ => none⟩ 0 (some "codeX")
        ⟨true, some "AT", some "RT", none⟩ ⟨some 5, some "nick"⟩
      ).state.usedCodes "codeX" = some 0 ∧
    (handleCallback ⟨[], fun _ => none⟩ 0 (some "codeX")
        ⟨true, some "AT", some "RT", none⟩ ⟨some 5, some "nick"⟩
      ).exchangeAttempted = true ∧
    (handleCallback (handleCallback ⟨[], fun _ => none⟩ 0 (some "codeX")
          ⟨true, some "AT", some "RT", none⟩ ⟨some 5, some "nick"⟩).state
        60000 (some "codeX") ⟨true, some "AT2", some "RT2", none⟩
        ⟨some 5, some "nick"⟩).status = 400 ∧
    (handleCallback (handleCallback ⟨[], fun _ => none⟩ 0 (some "codeX")
          ⟨true, some "AT", some "RT", none⟩ ⟨some 5, some "nick"⟩).state
        60000 (some "codeX") ⟨true, some "AT2", some "RT2", none⟩
        ⟨some 5, some "nick"⟩).exchangeAttempted = false ∧
    (handleCallback (handleCallback ⟨[], fun _ => none⟩ 0 (some "codeX")
          ⟨true, some "AT", some "RT", none⟩ ⟨some 5, some "nick"⟩).state
        60000 (some "codeX") ⟨true, some "AT2", some "RT2", none⟩
        ⟨some 5, some "nick"⟩).res = .codeReplayed ∧
    lookupCode (evictDue (handleCallback ⟨[], fun _ => none⟩ 0 (some "codeX")
          ⟨true, some "AT", some "RT", none⟩ ⟨some 5, some "nick"⟩
        ).state.usedCodes 120000) "codeX" = none :=
  claim_C4_code_replay_window ⟨[], fun _ => none⟩ 0 60000 120000 "codeX"
    ⟨true, some "AT", some "RT", none⟩ ⟨true, some "AT2", some "RT2", none⟩
    ⟨some 5, some "nick"⟩ ⟨some 5, some "nick"⟩ rfl (by decide) (by decide)

/-- C10: the replay guard records the code before the token exchange, so a
code whose exchange failed is still rejected with 400 if presented again
within the window — rejection does not require the first presentation to
have succeeded. -/
theorem claim_C10_guard_records_before_exchange (st : CbState) (t0 t1 : Int)
    (c : String) (e1 e2 : ExchangeOutcome) (me1 me2 : MeOutcome)
    (hfresh : lookupCode (evictDue st.usedCodes t0) c = none)
    (hfail : e1.ok = false) (hwin : t1 - t0 < 120000) :
    (handleCallback st t0 (some c) e1 me1).status = 400 ∧
    (handleCallback st t0 (some c) e1 me1).res = .exchangeFailed ∧
    (handleCallback st t0 (some c) e1 me1).exchangeAttempted = true ∧
    lookupCode (handleCallback st t0 (some c) e1 me1).state.usedCodes c =
      some t0 ∧
    (handleCallback (handleCallback st t0 (some c) e1 me1).state t1 (some c)
        e2 me2).status = 400 ∧
    (handleCallback (handleCallback st t0 (some c) e1 me1).state t1 (some c)
        e2 me2).exchangeAttempted = false ∧
    (handleCallback (handleCallback st t0 (some c) e1 me1).state t1 (some c)
        e2 me2).res = .codeReplayed := by
  obtain ⟨hs400, hres1⟩ := handleCallback_exchange_failed st t0 c e1 me1
    hfresh hfail
  obtain ⟨hstate, hatt⟩ := handleCallback_fresh st t0 c e1 me1 hfresh
  have hkeep : t1 < t0 + 120000 := by omega
  have hlook1 :
      lookupCode (handleCallback st t0 (some c) e1 me1).state.usedCodes c =
        some t0 := by
    rw [hstate, lookupCode_append_of_none hfresh]
    simp [lookupCode]
  have hlook2 :
      lookupCode
        (evictDue (handleCallback st t0 (some c) e1 me1).state.usedCodes t1)
        c = some t0 := by
    rw [hstate]
    exact lookup_after_first _ c t0 t1 hfresh hkeep
  obtain ⟨hs, ha, hres⟩ := handleCallback_replayed _ t1 t0 c e2 me2 hlook2 hwin
  exact ⟨hs400, hres1, hatt, hlook1, hs, ha, hres⟩

/-- C10 witness: a failed exchange at 0 ms still blocks the code at 90000 ms. -/
theorem claim_C10_guard_records_before_exchange_witness :
    (handleCallback ⟨[], fun _ => none⟩ 0 (some "codeY")
        ⟨false, none, none, none⟩ ⟨some 5, some "nick"⟩).status = 400 ∧
    (handleCallback ⟨[], fun _ => none⟩ 0 (some "codeY")
        ⟨false, none, none, none⟩ ⟨some 5, some "nick"⟩).res =
      .exchangeFailed ∧
    (handleCallback ⟨[], fun _ => none⟩ 0 (some "codeY")
        ⟨false, none, none, none⟩ ⟨some 5, some "nick"⟩).exchangeAttempted =
      true ∧
    lookupCode (handleCallback ⟨[], fun _ => none⟩ 0 (some "codeY")
        ⟨false, none, none, none⟩ ⟨some 5, some "nick"⟩).state.usedCodes
      "codeY" = some 0 ∧
    (handleCallback (handleCallback ⟨[], fun _ => none⟩ 0 (some "codeY")
          ⟨false, none, none, none⟩ ⟨some 5, some "nick"⟩).state
        90000 (some "codeY") ⟨true, some "AT", some "RT", none⟩
        ⟨some 5, some "nick"⟩).status = 400 ∧
    (handleCallback (handleCallback ⟨[], fun _ => none⟩ 0 (some "codeY")
          ⟨false, none, none, none⟩ ⟨some 5, some "nick"⟩).state
        90000 (some "codeY") ⟨true, some "AT", some "RT", none⟩
        ⟨some 5, some "nick"⟩).exchangeAttempted = false ∧
    (handleCallback (handleCallback ⟨[], fun _ => none⟩ 0 (some "codeY")
          ⟨false, none, none, none⟩ ⟨some 5, some "nick"⟩).state
        90000 (some "codeY") ⟨true, some "AT", some "RT", none⟩
        ⟨some 5, some "nick"⟩).res = .codeReplayed :=
  claim_C10_guard_records_before_exchange ⟨[], fun _ => none⟩ 0 90000 "codeY"
    ⟨false, none, none, none⟩ ⟨true, some "AT", some "RT", none⟩
    ⟨some 5, some "nick"⟩ ⟨some 5, some "nick"⟩ rfl rfl (by decide)

/-! ## Residual-occurrence analysis for `replaceScan` -/

/-- One unfolding step of the fuelled scanner. -/
theorem replaceScanF_succ_cons (f : Nat) (c : Char) (cs : List Char) :
    replaceScanF (f + 1) (c :: cs) =
      match matchAt (c :: cs) with
      | some n => phraseL ++ replaceScanF f ((c :: cs).drop n)
      | none => c :: replaceScanF f cs := rfl

/-- The fuel is irrelevant once it covers the input length. -/
theorem replaceScanF_irrel :
    ∀ (f1 : Nat) (l : List Char) (f2 : Nat),
      l.length ≤ f1 → l.length ≤ f2 → replaceScanF f1 l = replaceScanF f2 l := by
  intro f1
  induction f1 with
  | zero =>
    intro l f2 h1 _
    have hl : l = [] := List.eq_nil_of_length_eq_zero (Nat.le_zero.1 h1)
    subst hl
    cases f2 <;> rfl
  | succ f ih =>
    intro l f2 h1 h2
    cases l with
    | nil => cases f2 <;> rfl
    | cons c cs =>
      cases f2 with
      | zero => simp at h2
      | succ f2' =>
        rw [replaceScanF_succ_cons, replaceScanF_succ_cons]
        cases hm : matchAt (c :: cs) with
        | some n =>
          have hn := matchAt_pos hm
          have e1 : ((c :: cs).drop n).length ≤ f := by
            simp only [List.length_drop, List.length_cons]
            simp only [List.length_cons] at h1
            omega
          have e2 : ((c :: cs).drop n).length ≤ f2' := by
            simp only [List.length_drop, List.length_cons]
            simp only [List.length_cons] at h2
            omega
          simp only [hm]
          rw [ih _ f2' e1 e2]
        | none =>
          have e1 : cs.length ≤ f := by
            simp only [List.length_cons] at h1
            omega
          have e2 : cs.length ≤ f2' := by
            simp only [List.length_cons] at h2
            omega
          simp only [hm]
          rw [ih cs f2' e1 e2]

/-- The scanner of the empty input. -/
theorem replaceScan_nil : replaceScan [] = [] := rfl

/-- Scanner recurrence at a matching position. -/
theorem replaceScan_match {c : Char} {cs : List Char} {n : Nat}
    (hm : matchAt (c :: cs) = some n) :
    replaceScan (c :: cs) = phraseL ++ replaceScan ((c :: cs).drop n) := by
  unfold replaceScan
  rw [show (c :: cs).length = cs.length + 1 from rfl, replaceScanF_succ_cons,
    hm]
  dsimp only
  have hn := matchAt_pos hm
  have e1 : ((c :: cs).drop n).length ≤ cs.length := by
    simp only [List.length_drop, List.length_cons]
    omega
  rw [replaceScanF_irrel cs.length _ ((c :: cs).drop n).length e1 le_rfl]

/-- Scanner recurrence at a non-matching position. -/
theorem replaceScan_nomatch {c : Char} {cs : List Char}
    (hm : matchAt (c :: cs) = none) :
    replaceScan (c :: cs) = c :: replaceScan cs := by
  unfold replaceScan
  rw [show (c :: cs).length = cs.length + 1 from rfl, replaceScanF_succ_cons,
    hm]

/-- Predicate `litAt` is case-insensitive literal prefix matching. -/
theorem litAt_iff : ∀ (pat cs : List Char),
    litAt pat cs = true ↔ pat <+: lowerL cs := by
  intro pat
  induction pat with
  | nil =>
    intro cs
    simp only [litAt]
    exact iff_of_true trivial List.nil_prefix
  | cons p ps ih =>
    intro cs
    cases cs with
    | nil =>
      simp [litAt, lowerL]
    | cons c cs' =>
      rw [show lowerL (c :: cs') = Char.toLower c :: lowerL cs' from rfl]
      rw [List.cons_prefix_cons]
      show (p == Char.toLower c && litAt ps cs') = true ↔ _
      rw [Bool.and_eq_true, beq_iff_eq, ih cs']

/-- A position where the regex does not match carries none of the fixed
terms. -/
theorem matchAt_none_no_lit {cs : List Char} (h : matchAt cs = none) :
    litAt whatsL cs = false ∧ litAt telegramL cs = false ∧
      litAt instagramL cs = false := by
  unfold matchAt at h
  split_ifs at h <;> simp_all

/-- A fixed term sitting at the current position forces a match. -/
theorem matchAt_ne_none_of_term {t : List Char} (ht : t ∈ fixedTerms)
    {cs : List Char} (hlit : litAt t cs = true) : matchAt cs ≠ none := by
  intro h
  obtain ⟨h1, h2, h3⟩ := matchAt_none_no_lit h
  simp only [fixedTerms, List.mem_cons, List.not_mem_nil, or_false] at ht
  rcases ht with rfl | rfl | rfl <;> simp_all

/-- The replacement phrase contains no occurrence of a fixed term. -/
theorem phrase_no_term : ∀ t ∈ fixedTerms, ¬ t <:+: lowerL phraseL := by
  decide

/-- No nonempty suffix of the replacement phrase starts a fixed term. -/
theorem phrase_tails_no_term_head :
    ∀ s ∈ (lowerL phraseL).tails, ∀ t ∈ fixedTerms, ¬(s ≠ [] ∧ s <+: t) := by
  decide

/-- The residue set is closed under dropping the first character. -/
theorem termTails_tail_mem : ∀ t ∈ termTails, t.tail ∈ termTails := by decide

/-- No nonempty residue of a fixed term starts the replacement phrase. -/
theorem termTails_not_in_phrase :
    ∀ t ∈ termTails, t ≠ [] → ¬ t <+: lowerL phraseL := by decide

/-- Every residue is shorter than the replacement phrase. -/
theorem termTails_length_le :
    ∀ t ∈ termTails, t.length ≤ (lowerL phraseL).length := by decide

/-- The fixed terms are their own (improper) residues. -/
theorem fixedTerms_sub_tails : ∀ t ∈ fixedTerms, t ∈ termTails := by decide

/-- The fixed terms are nonempty. -/
theorem fixedTerms_ne_nil : ∀ t ∈ fixedTerms, t ≠ [] := by decide

/-- A prefix of an append splits at the boundary. -/
theorem appendPrefixCases {α : Type} {t l₁ l₂ : List α} (h : t <+: l₁ ++ l₂) :
    t <+: l₁ ∨ ∃ t₂, t = l₁ ++ t₂ ∧ t₂ <+: l₂ := by
  induction l₁ generalizing t with
  | nil =>
    right
    exact ⟨t, by simp, by simpa using h⟩
  | cons a l₁' ih =>
    cases t with
    | nil =>
      left
      exact List.nil_prefix
    | cons b t' =>
      rw [List.cons_append, List.cons_prefix_cons] at h
      obtain ⟨rfl, h'⟩ := h
      rcases ih h' with h1 | ⟨t₂, rfl, h2⟩
      · left
        exact List.cons_prefix_cons.2 ⟨rfl, h1⟩
      · right
        exact ⟨t₂, by simp, h2⟩

/-- A short prefix of an append is a prefix of the left part. -/
theorem shortPrefixLeft {α : Type} {t l₁ l₂ : List α} (h : t <+: l₁ ++ l₂)
    (hlen : t.length ≤ l₁.length) : t <+: l₁ := by
  rcases appendPrefixCases h with h1 | ⟨t₂, rfl, h2⟩
  · exact h1
  · have ht2 : t₂ = [] := by
      apply List.eq_nil_of_length_eq_zero
      rw [List.length_append] at hlen
      omega
    subst ht2
    rw [List.append_nil]

/-- An infix of an append lies in one part or crosses the boundary. -/
theorem appendInfixCases {α : Type} {t l₁ l₂ : List α} (h : t <:+: l₁ ++ l₂) :
    t <:+: l₁ ∨ t <:+: l₂ ∨
      ∃ s₁ s₂, t = s₁ ++ s₂ ∧ s₁ ≠ [] ∧ s₂ ≠ [] ∧ s₁ <:+ l₁ ∧ s₂ <+: l₂ := by
  induction l₁ generalizing t with
  | nil =>
    right
    left
    simpa using h
  | cons a l₁' ih =>
    rw [List.cons_append, List.infix_cons_iff] at h
    rcases h with hp | hi
    · rw [show a :: (l₁' ++ l₂) = (a :: l₁') ++ l₂ from rfl] at hp
      rcases appendPrefixCases hp with h1 | ⟨t₂, rfl, h2⟩
      · left
        exact List.IsPrefix.isInfix h1
      · cases t₂ with
        | nil =>
          left
          rw [List.append_nil]
        | cons x xs =>
          right
          right
          exact ⟨a :: l₁', x :: xs, rfl, by simp, by simp, List.suffix_rfl, h2⟩
    · rcases ih hi with h1 | h2 | ⟨s₁, s₂, rfl, hn1, hn2, hs, hp2⟩
      · left
        exact List.infix_cons h1
      · right
        left
        exact h2
      · right
        right
        exact ⟨s₁, s₂, rfl, hn1, hn2, hs.trans (List.suffix_cons a l₁'), hp2⟩

/-- A term residue that is a prefix of the scanner's output is already a
prefix of the input: the scanner never manufactures the leading characters
of a term. -/
theorem scanResidueTransfer :
    ∀ (n : Nat) (cs : List Char), cs.length ≤ n →
      ∀ t ∈ termTails, t <+: lowerL (replaceScan cs) → t <+: lowerL cs := by
  intro n
  induction n with
  | zero =>
    intro cs hlen t ht hp
    have hl : cs = [] := List.eq_nil_of_length_eq_zero (Nat.le_zero.1 hlen)
    subst hl
    simpa using hp
  | succ n ih =>
    intro cs hlen t ht hp
    cases cs with
    | nil => simpa using hp
    | cons c cs' =>
      cases hm : matchAt (c :: cs') with
      | some k =>
        rw [replaceScan_match hm] at hp
        cases t with
        | nil => exact List.nil_prefix
        | cons p t' =>
          exfalso
          have hlen' : (p :: t').length ≤ (lowerL phraseL).length :=
            termTails_length_le _ ht
          have hsplit : lowerL (phraseL ++ replaceScan ((c :: cs').drop k)) =
              lowerL phraseL ++ lowerL (replaceScan ((c :: cs').drop k)) := by
            simp [lowerL]
          rw [hsplit] at hp
          exact termTails_not_in_phrase _ ht (by simp)
            (shortPrefixLeft hp hlen')
      | none =>
        rw [replaceScan_nomatch hm] at hp
        cases t with
        | nil => exact List.nil_prefix
        | cons p t' =>
          rw [show lowerL (c :: replaceScan cs') =
              Char.toLower c :: lowerL (replaceScan cs') from rfl,
            List.cons_prefix_cons] at hp
          obtain ⟨hpc, hp'⟩ := hp
          have ht' : t' ∈ termTails := by
            have := termTails_tail_mem _ ht
            simpa using this
          have hlen' : cs'.length ≤ n := by
            simp only [List.length_cons] at hlen
            omega
          have htr := ih cs' hlen' t' ht' hp'
          rw [show lowerL (c :: cs') = Char.toLower c :: lowerL cs' from rfl,
            List.cons_prefix_cons]
          exact ⟨hpc, htr⟩

/-- The scanner's output carries no case-insensitive occurrence of any fixed
off-platform term, for every input. -/
theorem replaceScan_no_term :
    ∀ (n : Nat) (cs : List Char), cs.length ≤ n →
      NoTermOcc (replaceScan cs) := by
  intro n
  induction n with
  | zero =>
    intro cs hlen t ht hocc
    have hl : cs = [] := List.eq_nil_of_length_eq_zero (Nat.le_zero.1 hlen)
    subst hl
    exact fixedTerms_ne_nil t ht
      (List.eq_nil_of_infix_nil (by simpa [replaceScan_nil, lowerL] using hocc))
  | succ n ih =>
    intro cs hlen t ht hocc
    cases cs with
    | nil =>
      exact fixedTerms_ne_nil t ht
        (List.eq_nil_of_infix_nil (by simpa [replaceScan_nil, lowerL] using hocc))
    | cons c cs' =>
      cases hm : matchAt (c :: cs') with
      | some k =>
        rw [replaceScan_match hm] at hocc
        have hsplit : lowerL (phraseL ++ replaceScan ((c :: cs').drop k)) =
            lowerL phraseL ++ lowerL (replaceScan ((c :: cs').drop k)) := by
          simp [lowerL]
        rw [hsplit] at hocc
        rcases appendInfixCases hocc with h1 | h2 |
          ⟨s₁, s₂, heq, hn1, hn2, hs, hp2⟩
        · exact phrase_no_term t ht h1
        · have hk := matchAt_pos hm
          have hlen' : ((c :: cs').drop k).length ≤ n := by
            simp only [List.length_drop, List.length_cons]
            simp only [List.length_cons] at hlen
            omega
          exact ih _ hlen' t ht h2
        · have hmem : s₁ ∈ (lowerL phraseL).tails := (List.mem_tails _ _).2 hs
          refine phrase_tails_no_term_head s₁ hmem t ht ⟨hn1, ?_⟩
          rw [heq]
          exact List.prefix_append s₁ s₂
      | none =>
        rw [replaceScan_nomatch hm] at hocc
        rw [show lowerL (c :: replaceScan cs') =
            Char.toLower c :: lowerL (replaceScan cs') from rfl,
          List.infix_cons_iff] at hocc
        rcases hocc with hp | hi
        · cases t with
          | nil => exact fixedTerms_ne_nil [] ht rfl
          | cons p t' =>
            rw [List.cons_prefix_cons] at hp
            obtain ⟨hpc, hp'⟩ := hp
            have ht' : t' ∈ termTails := by
              have := termTails_tail_mem _ (fixedTerms_sub_tails _ ht)
              simpa using this
            have htr : t' <+: lowerL cs' :=
              scanResidueTransfer cs'.length cs' le_rfl t' ht' hp'
            have hlit : litAt (p :: t') (c :: cs') = true := by
              rw [litAt_iff]
              rw [show lowerL (c :: cs') = Char.toLower c :: lowerL cs'
                from rfl]
              exact List.cons_prefix_cons.2 ⟨hpc, htr⟩
            exact matchAt_ne_none_of_term ht hlit hm
        · have hlen' : cs'.length ≤ n := by
            simp only [List.length_cons] at hlen
            omega
          exact ih cs' hlen' t ht hi

/-- The two main corollaries packaged for every input. -/
theorem noTermOcc_replaceScan (cs : List Char) : NoTermOcc (replaceScan cs) :=
  replaceScan_no_term cs.length cs le_rfl

/-- Truncation cannot create an occurrence. -/
theorem noTermOcc_take (l : List Char) (n : Nat) (h : NoTermOcc l) :
    NoTermOcc (l.take n) := by
  intro t ht hocc
  apply h t ht
  have hpre : lowerL (l.take n) <+: lowerL l := by
    rw [lowerL, lowerL, List.map_take]
    exact List.take_prefix _ _
  exact hocc.trans ( List.IsPrefix.isInfix hpre)

/-- Responses failing the shape test select the fallback. -/
theorem selectText_badShape (d : GenData) (h : badShape d = true) :
    selectText d = fallbackReply := by
  cases d with
  | parseFailed => rfl
  | notArray => rfl
  | arr entries =>
    cases entries with
    | nil => rfl
    | cons e rest =>
      cases e with
      | none => rfl
      | some t =>
        have ht : t = "" := by simpa [badShape] using h
        subst ht
        simp [selectText]

/-- C8: `generateAI` returns the static fallback whenever the generation
response fails to parse or has an unexpected shape; in every case the result
is the off-platform-term substitution of the selected text truncated to 900
characters, so it is at most 900 characters long and carries no
case-insensitive occurrence of the fixed off-platform contact terms. -/
theorem claim_C8_generate_fallback_and_postprocess (d : GenData) :
    (badShape d = true → generateAI d = fallbackReply) ∧
    generateAI d = jsSlice900 (replaceOffPlatform (selectText d)) ∧
    (generateAI d).length ≤ 900 ∧
    NoTermOcc (generateAI d).data := by
  refine ⟨?_, rfl, ?_, ?_⟩
  · intro h
    unfold generateAI
    rw [selectText_badShape d h]
    decide
  · show (List.take 900 (replaceScan (selectText d).data)).length ≤ 900
    rw [List.length_take]
    exact min_le_left _ _
  · show NoTermOcc (List.take 900 (replaceScan (selectText d).data))
    exact noTermOcc_take _ _ (noTermOcc_replaceScan _)

/-- C8 witness: a parse failure falls back, and the fallback survives the
post-processing unchanged. -/
theorem claim_C8_generate_fallback_and_postprocess_witness :
    generateAI .parseFailed = fallbackReply :=
  (claim_C8_generate_fallback_and_postprocess .parseFailed).1 rfl

end Velox
